import Mathlib

/-!
Verification of the sandbox raster-query utilities.

This file is a shallow embedding, in Lean 4, of the two source files
`query_raster.py` and `transformations.py`:

* window sizing — the benchmark's meters-to-cells conversion
  (`cells = max(3, round(size / 30))`, forced odd) composed with the
  neighborhood aggregator's radius computation (`distance = window_size // 2`);
* the two histogram aggregators `get_pixel_counts_in_buffer_5070` and
  `get_pixel_counts_in_neighborhood_5070`, modelled over an abstract
  raster-engine boundary (the engine returns the rows a cursor would fetch,
  or a connection-level error);
* the benchmark harness `benchmark_methods_by_size` and the median
  summarisation of `plot_scaling_comparison`;
* the datum-substitution operation of the coordinate reconciler.

Python floats are modelled as exact rationals (`ℚ`), Python ints as `ℤ`,
Python's `round` as round-half-to-even (`pyround` below), Python's `//` and
`%` on integers as Lean's `/` and `%` on `ℤ` (Euclidean division, which for
the positive divisors used here coincides with Python's floor division).
A Python function that swallows exceptions and returns `None` is modelled as
a total function into `Option`; the fallible engine boundary is `Except`.
-/

namespace RasterQuery

/-- Python's built-in `round`: round half to even (banker's rounding). -/
def pyround (q : ℚ) : ℤ :=
  if q - ⌊q⌋ < 1/2 then ⌊q⌋
  else if 1/2 < q - ⌊q⌋ then ⌊q⌋ + 1
  else if ⌊q⌋ % 2 = 0 then ⌊q⌋ else ⌊q⌋ + 1

/-- `query_raster.py` lines 199–201 (in `benchmark_methods_by_size`):
`cells = max(3, round(size / resolution))`, then `cells += 1` if even, so the
window size is odd.  The source hardcodes `resolution = 30` (NLCD); the
resolution is kept as a parameter here and instantiated at 30 where the
benchmark is modelled. -/
def window_cells (size resolution : ℚ) : ℤ :=
  let cells := max 3 (pyround (size / resolution))
  if cells % 2 = 0 then cells + 1 else cells

/-- `query_raster.py` line 141 (in `get_pixel_counts_in_neighborhood_5070`):
`distance = window_size // 2`. -/
def window_radius (window_size : ℤ) : ℤ :=
  window_size / 2

/-- The window-sizing operation the spec calls `WindowSizer.cellsForDistance`:
the benchmark's meters-to-cells conversion composed with the neighborhood
radius computation. -/
def cellsForDistance (d r : ℚ) : ℤ :=
  window_radius (window_cells d r)

/-- The formula the spec writes for `WindowSizer.cellsForDistance`:
`radius = max(1, round(groundDistanceMeters / cellResolutionMeters / 2))`.
Stated from the spec's words, for comparison with `cellsForDistance`,
which is translated from the source. -/
def cellsForDistanceSpec (d r : ℚ) : ℤ :=
  max 1 (pyround (d / r / 2))

section PyroundLemmas

theorem pyround_le_floor_add_one (q : ℚ) : pyround q ≤ ⌊q⌋ + 1 := by
  unfold pyround
  split_ifs <;> omega

theorem floor_le_pyround (q : ℚ) : ⌊q⌋ ≤ pyround q := by
  unfold pyround
  split_ifs <;> omega

theorem pyround_mono {a b : ℚ} (h : a ≤ b) : pyround a ≤ pyround b := by
  have hfl : ⌊a⌋ ≤ ⌊b⌋ := Int.floor_mono h
  rcases lt_or_eq_of_le hfl with hlt | heq
  · calc pyround a ≤ ⌊a⌋ + 1 := pyround_le_floor_add_one a
      _ ≤ ⌊b⌋ := by omega
      _ ≤ pyround b := floor_le_pyround b
  · have hfrac : a - ⌊a⌋ ≤ b - ⌊b⌋ := by
      rw [heq] at *
      linarith
    unfold pyround
    rw [heq] at *
    split_ifs <;> first | omega | linarith

theorem pyround_nonpos {q : ℚ} (h : q ≤ 0) : pyround q ≤ 0 := by
  have h0 : pyround q ≤ pyround 0 := pyround_mono h
  have : pyround 0 = 0 := by
    unfold pyround
    norm_num
  omega

theorem pyround_intCast (n : ℤ) : pyround (n : ℚ) = n := by
  unfold pyround
  simp [Int.floor_intCast]

end PyroundLemmas

section WindowSizing

/-- The parity-correction branch never changes the resulting radius:
`(if even then c+1 else c) / 2 = c / 2` for `c ≥ 3`. -/
theorem cellsForDistance_eq_halved_max (d r : ℚ) :
    cellsForDistance d r = max 3 (pyround (d / r)) / 2 := by
  simp only [cellsForDistance, window_cells, window_radius]
  set c := max 3 (pyround (d / r)) with hc
  have hc3 : 3 ≤ c := le_max_left _ _
  split_ifs with hpar <;> omega

theorem one_le_cellsForDistance (d r : ℚ) : 1 ≤ cellsForDistance d r := by
  rw [cellsForDistance_eq_halved_max]
  have h3 : (3 : ℤ) ≤ max 3 (pyround (d / r)) := le_max_left _ _
  omega

theorem cellsForDistance_mono {r : ℚ} (hr : 0 < r) {d1 d2 : ℚ} (h : d1 ≤ d2) :
    cellsForDistance d1 r ≤ cellsForDistance d2 r := by
  rw [cellsForDistance_eq_halved_max, cellsForDistance_eq_halved_max]
  have hdiv : d1 / r ≤ d2 / r := div_le_div_of_nonneg_right h hr.le
  have hround := pyround_mono hdiv
  have hmax : max 3 (pyround (d1 / r)) ≤ max 3 (pyround (d2 / r)) :=
    max_le_max le_rfl hround
  omega

theorem cellsForDistance_of_nonpos {d r : ℚ} (hr : 0 < r) (hd : d ≤ 0) :
    cellsForDistance d r = 1 := by
  rw [cellsForDistance_eq_halved_max]
  have hq : d / r ≤ 0 := div_nonpos_of_nonpos_of_nonneg hd hr.le
  have := pyround_nonpos hq
  have : max 3 (pyround (d / r)) = 3 := by omega
  rw [this]
  rfl

end WindowSizing

section WindowSizingEval

theorem ninety_div_thirty : (90 : ℚ) / 30 = ((3 : ℤ) : ℚ) := by norm_num

theorem pyround_three : pyround ((90 : ℚ) / 30) = 3 := by
  rw [ninety_div_thirty, pyround_intCast]

theorem floor_three_halves : ⌊(90 : ℚ) / 30 / 2⌋ = 1 := by
  rw [Int.floor_eq_iff]
  norm_num

theorem pyround_three_halves : pyround ((90 : ℚ) / 30 / 2) = 2 := by
  unfold pyround
  rw [floor_three_halves]
  norm_num

theorem cellsForDistance_90_30_eq_one : cellsForDistance 90 30 = 1 := by
  rw [cellsForDistance_eq_halved_max, pyround_three]
  decide

theorem cellsForDistanceSpec_90_30_eq_two : cellsForDistanceSpec 90 30 = 2 := by
  unfold cellsForDistanceSpec
  rw [pyround_three_halves]
  decide

end WindowSizingEval

/-!
Histogram aggregators.

The raster engine (PostGIS) is the external boundary: an aggregator's
`engine` argument stands for executing its SQL query through `db_cursor`
and fetching all rows.  `Except.error` is a connection-level failure
(`psycopg` raising inside the `with db_cursor()` block); `Except.ok` carries
the cell values the query inspects.  A raster cell value is an integer; the
raster's no-data sentinel is the parameter `nd`.
-/

/-- Models the PostGIS primitive `ST_ValueCount` at the raster-engine
boundary, from its documented semantics: one `(value, count)` row per
distinct pixel value occurring in the raster region, with no-data pixels not
counted (its default `exclude_nodata_value = true`). -/
def st_valueCount (nd : ℤ) (cells : List ℤ) : List (ℤ × ℕ) :=
  let valid := cells.filter (fun v => v ≠ nd)
  valid.dedup.map (fun v => (v, valid.count v))

/-- Models a SQL `SELECT pixel_value, count(*) ... GROUP BY pixel_value`
over rows that may be NULL (`Option.none`): one row per distinct value. -/
def groupCounts (rows : List (Option ℤ)) : List (Option ℤ × ℕ) :=
  rows.dedup.map (fun v => (v, rows.count v))

/-- `query_raster.py` lines 80–123, `get_pixel_counts_in_buffer_5070`.
The engine executes the buffer/clip query: given `buffer_meters` it returns
the raw cell values of the clipped region (to which the server applies
`ST_ValueCount`), or a connection-level error.  The Python `except` clause
catches any error, prints it, and returns `None`; the dict comprehension
`\x7bvalue: count for value, count in results\x7d` is the identity on the
already-distinct keys of the fetched rows. -/
def get_pixel_counts_in_buffer_5070 (nd : ℤ) (buffer_meters : ℚ)
    (engine : ℚ → Except String (List ℤ)) : Option (List (ℤ × ℕ)) :=
  match engine buffer_meters with
  | .error _ => none
  | .ok cells => some (st_valueCount nd cells)

/-- Models how the engine surfaces a window of raster cells to the
neighborhood query: `ST_Neighborhood` (default `exclude_nodata_value`)
returns NULL for a no-data pixel, so a cell holding the sentinel `nd`
reaches the SQL level as a NULL row. -/
def engineNeighborhoodRows (nd : ℤ) (cells : List ℤ) : List (Option ℤ) :=
  cells.map (fun v => if v = nd then none else some v)

/-- `query_raster.py` lines 125–169, `get_pixel_counts_in_neighborhood_5070`.
Line 141 computes `distance = window_size // 2`; the engine executes the
`ST_Neighborhood` query at that distance and returns the unnested rows
(NULL rows included), which the query's `WHERE pixel_value IS NOT NULL`
filters before `GROUP BY`.  As in the buffer aggregator, any error is
caught and `None` is returned. -/
def get_pixel_counts_in_neighborhood_5070 (window_size : ℤ)
    (engine : ℤ → Except String (List (Option ℤ))) :
    Option (List (Option ℤ × ℕ)) :=
  let distance := window_radius window_size
  match engine distance with
  | .error _ => none
  | .ok rows => some (groupCounts (rows.filter (fun v => v.isSome)))

/-!
Benchmark harness, `query_raster.py` lines 171–206, and the median
summarisation of `plot_scaling_comparison`, lines 208–217.

Wall-clock durations cannot be derived in the embedding, so the two
`timeit.default_timer()` differences per iteration are an oracle
`timer strategy size iteration`.  The engines may differ per iteration.
The results dict `\x7b'buffer': \x7bsize: [...]\x7d, 'neighborhood': ...\x7d` is
modelled as a function `Strategy → ℚ → List ℚ` initialised to `[]`.
-/

inductive Strategy
  | buffer
  | neighborhood
deriving DecidableEq

/-- Appends one elapsed-time sample to `results[strategy][size]`. -/
def recordSample (res : Strategy → ℚ → List ℚ) (strat : Strategy)
    (size : ℚ) (t : ℚ) : Strategy → ℚ → List ℚ :=
  fun st s => if st = strat ∧ s = size then res st s ++ [t] else res st s

/-- One iteration of the inner loop of `benchmark_methods_by_size`
(lines 191–204): time the buffer call at `size` meters, then convert meters
to cells (NLCD resolution 30, lines 199–201) and time the neighborhood
call.  The aggregator outputs are discarded; only durations are recorded. -/
def benchIter (nd : ℤ) (bufE : ℕ → ℚ → Except String (List ℤ))
    (neighE : ℕ → ℤ → Except String (List (Option ℤ)))
    (timer : Strategy → ℚ → ℕ → ℚ) (size : ℚ)
    (res : Strategy → ℚ → List ℚ) (i : ℕ) : Strategy → ℚ → List ℚ :=
  let _bufferHist := get_pixel_counts_in_buffer_5070 nd size (bufE i)
  let res1 := recordSample res .buffer size (timer .buffer size i)
  let cells := window_cells size 30
  let _neighborhoodHist := get_pixel_counts_in_neighborhood_5070 cells (neighE i)
  recordSample res1 .neighborhood size (timer .neighborhood size i)

/-- `query_raster.py` lines 171–206, `benchmark_methods_by_size`: for each
size, for `n_iterations` repetitions, run and time both aggregator calls. -/
def benchmark_methods_by_size (nd : ℤ)
    (bufE : ℕ → ℚ → Except String (List ℤ))
    (neighE : ℕ → ℤ → Except String (List (Option ℤ)))
    (timer : Strategy → ℚ → ℕ → ℚ)
    (sizes : List ℚ) (n_iterations : ℕ) : Strategy → ℚ → List ℚ :=
  sizes.foldl
    (fun res size =>
      (List.range n_iterations).foldl (benchIter nd bufE neighE timer size) res)
    (fun _ _ => [])

/-- Models `np.median` on a list of samples: sort ascending; odd length
takes the middle element, even length averages the two middle elements. -/
def npMedian (l : List ℚ) : ℚ :=
  let s := l.insertionSort (· ≤ ·)
  if l.length % 2 = 1 then s.getD (l.length / 2) 0
  else (s.getD (l.length / 2 - 1) 0 + s.getD (l.length / 2) 0) / 2

/-- `query_raster.py` lines 216–217 (in `plot_scaling_comparison`): the two
per-size summary series, `np.median(results['buffer'][size])` and
`np.median(results['neighborhood'][size])` for each size in order. -/
def plot_scaling_comparison (results : Strategy → ℚ → List ℚ)
    (sizes : List ℚ) : List ℚ × List ℚ :=
  (sizes.map (fun size => npMedian (results .buffer size)),
   sizes.map (fun size => npMedian (results .neighborhood size)))

/-!
Coordinate reconciler, `transformations.py`.

`create_transformers` (lines 14–44) builds the standard EPSG:5070 transformer
and one from a literal proj parameter string containing `+datum=WGS84`; a
proj parameter string is a sequence of whitespace-separated tokens, modelled
here as a `List String`.
-/

/-- Modelled from the spec: `CoordinateReconciler.derive` is absent from the
source (`create_transformers` hardcodes both parameter strings instead of
deriving one from the other).  Per the spec's words, it performs a literal
substitution of the source datum token by the target datum token within the
standard CRS's parameter string, and fails with `DatumNotFound` when the
source datum token is absent. -/
def derive (standardCrsParams : List String) (sourceDatumToken targetDatumToken : String) :
    Except String (List String) :=
  if sourceDatumToken ∈ standardCrsParams then
    .ok (standardCrsParams.map
      (fun tok => if tok = sourceDatumToken then targetDatumToken else tok))
  else
    .error "DatumNotFound"

section HistogramLemmas

theorem mem_st_valueCount {nd : ℤ} {cells : List ℤ} {k : ℤ} {c : ℕ}
    (h : (k, c) ∈ st_valueCount nd cells) : k ≠ nd ∧ 1 ≤ c := by
  unfold st_valueCount at h
  simp only [List.mem_map, Prod.mk.injEq] at h
  obtain ⟨v, hv, hvk, hvc⟩ := h
  subst hvk
  have hmem : v ∈ cells.filter (fun u => u ≠ nd) := List.mem_dedup.mp hv
  have hne : v ≠ nd := by
    have := List.of_mem_filter hmem
    simpa using this
  refine ⟨hne, ?_⟩
  have hpos : 0 < (cells.filter (fun u => u ≠ nd)).count v :=
    List.count_pos_iff.mpr hmem
  omega

theorem mem_groupCounts {rows : List (Option ℤ)} {k : Option ℤ} {c : ℕ}
    (h : (k, c) ∈ groupCounts rows) : k ∈ rows ∧ 1 ≤ c := by
  unfold groupCounts at h
  simp only [List.mem_map, Prod.mk.injEq] at h
  obtain ⟨v, hv, hvk, hvc⟩ := h
  subst hvk
  have hmem : v ∈ rows := List.mem_dedup.mp hv
  have hpos : 0 < rows.count v := List.count_pos_iff.mpr hmem
  exact ⟨hmem, by omega⟩

theorem not_some_nd_mem_engineNeighborhoodRows (nd : ℤ) (cells : List ℤ) :
    some nd ∉ engineNeighborhoodRows nd cells := by
  unfold engineNeighborhoodRows
  simp only [List.mem_map]
  rintro ⟨v, hv, hveq⟩
  by_cases hvnd : v = nd <;> simp [hvnd] at hveq

end HistogramLemmas

section BenchmarkLemmas

variable (nd : ℤ) (bufE : ℕ → ℚ → Except String (List ℤ))
variable (neighE : ℕ → ℤ → Except String (List (Option ℤ)))
variable (timer : Strategy → ℚ → ℕ → ℚ)

theorem recordSample_length (res : Strategy → ℚ → List ℚ) (strat : Strategy)
    (size t : ℚ) (st : Strategy) (s : ℚ) :
    ((recordSample res strat size t) st s).length =
      (res st s).length + (if st = strat ∧ s = size then 1 else 0) := by
  unfold recordSample
  split_ifs <;> simp

theorem benchIter_length (size : ℚ) (res : Strategy → ℚ → List ℚ) (i : ℕ)
    (st : Strategy) (s : ℚ) :
    ((benchIter nd bufE neighE timer size res i) st s).length =
      (res st s).length + (if s = size then 1 else 0) := by
  cases st <;>
    simp only [benchIter, recordSample_length] <;>
    split_ifs <;> simp_all

theorem benchInner_length (size : ℚ) (l : List ℕ) :
    ∀ (res : Strategy → ℚ → List ℚ) (st : Strategy) (s : ℚ),
      ((l.foldl (benchIter nd bufE neighE timer size) res) st s).length =
        (res st s).length + l.length * (if s = size then 1 else 0) := by
  induction l with
  | nil => intro res st s; simp
  | cons i l ih =>
    intro res st s
    simp only [List.foldl_cons, List.length_cons]
    rw [ih, benchIter_length]
    split_ifs <;> ring

theorem benchOuter_length (K : ℕ) (sizes : List ℚ) :
    ∀ (res : Strategy → ℚ → List ℚ) (st : Strategy) (s : ℚ),
      ((sizes.foldl
          (fun res size =>
            (List.range K).foldl (benchIter nd bufE neighE timer size) res)
          res) st s).length =
        (res st s).length + sizes.count s * K := by
  induction sizes with
  | nil => intro res st s; simp
  | cons a rest ih =>
    intro res st s
    simp only [List.foldl_cons]
    rw [ih, benchInner_length, List.length_range, List.count_cons]
    rcases eq_or_ne s a with h | h
    · simp [h]
      ring
    · simp [h, Ne.symm h]

theorem benchmark_methods_by_size_length (sizes : List ℚ) (K : ℕ)
    (st : Strategy) (s : ℚ) :
    ((benchmark_methods_by_size nd bufE neighE timer sizes K) st s).length =
      sizes.count s * K := by
  unfold benchmark_methods_by_size
  rw [benchOuter_length]
  simp

theorem sum_map_eq_of_const {α : Type} (l : List α) (f : α → ℕ) (K : ℕ)
    (h : ∀ s ∈ l, f s = K) : (l.map f).sum = l.length * K := by
  induction l with
  | nil => simp
  | cons a rest ih =>
    simp only [List.map_cons, List.sum_cons, List.length_cons]
    rw [h a (List.mem_cons_self a rest), ih (fun s hs => h s (List.mem_cons_of_mem a hs))]
    ring

end BenchmarkLemmas

/-!
Claim theorems.
-/

/-- C1 (counterexample): the claim states that the window-sizing operation
returns `max(1, round(d / r / 2))` for every distance `d` and resolution
`r > 0`.  At `d = 90`, `r = 30` the code returns radius 1 while the claimed
formula gives `max(1, round(1.5)) = 2`, so the claim is false. -/
theorem C1_formula_counterexample :
    cellsForDistance 90 30 = 1 ∧ cellsForDistanceSpec 90 30 = 2 ∧
      cellsForDistance 90 30 ≠ cellsForDistanceSpec 90 30 := by
  refine ⟨cellsForDistance_90_30_eq_one, cellsForDistanceSpec_90_30_eq_two, ?_⟩
  rw [cellsForDistance_90_30_eq_one, cellsForDistanceSpec_90_30_eq_two]
  decide

/-- C1 (amended): for every ground distance `d` and cell resolution `r > 0`,
the window-sizing operation returns
`radius = max(3, round(d / r)) // 2` (round half to even, floor division) —
not `max(1, round(d / r / 2))` — so the resulting window size
`2·radius + 1` is always odd, the radius is always at least 1, and
degenerate input `d ≤ 0` yields the minimum radius 1 (a 3×3 window) rather
than an error. -/
theorem C1_window_sizing_amended (d r : ℚ) (hr : 0 < r) :
    cellsForDistance d r = max 3 (pyround (d / r)) / 2 ∧
      1 ≤ cellsForDistance d r ∧
      (2 * cellsForDistance d r + 1) % 2 = 1 ∧
      (d ≤ 0 → cellsForDistance d r = 1) := by
  refine ⟨cellsForDistance_eq_halved_max d r, one_le_cellsForDistance d r, ?_, ?_⟩
  · omega
  · exact fun hd => cellsForDistance_of_nonpos hr hd

/-- C1 (witness): the amended statement instantiated at `d = -5`, `r = 30`. -/
theorem C1_window_sizing_amended_witness :
    (0 : ℚ) < 30 ∧
      (cellsForDistance (-5) 30 = max 3 (pyround ((-5) / 30)) / 2 ∧
        1 ≤ cellsForDistance (-5) 30 ∧
        (2 * cellsForDistance (-5) 30 + 1) % 2 = 1 ∧
        ((-5 : ℚ) ≤ 0 → cellsForDistance (-5) 30 = 1)) :=
  ⟨by norm_num, C1_window_sizing_amended (-5) 30 (by norm_num)⟩

/-- C2: for the literal inputs ground distance 90 and cell resolution 30,
the benchmark's meters-to-cells conversion yields a window of 3 cells and
the neighborhood radius computation yields radius 1, i.e. a 3×3 window. -/
theorem C2_ninety_meters_radius_one :
    window_cells 90 30 = 3 ∧ cellsForDistance 90 30 = 1 := by
  constructor
  · unfold window_cells
    rw [pyround_three]
    decide
  · exact cellsForDistance_90_30_eq_one

/-- C8: for every fixed cell resolution `r > 0`, the window-sizing operation
is monotonically non-decreasing in the ground distance, and for every
distance it returns a radius at least 1 whose window size `2·radius + 1`
is odd. -/
theorem C8_window_sizing_monotone (r : ℚ) (hr : 0 < r) :
    (∀ d1 d2 : ℚ, d1 ≤ d2 → cellsForDistance d1 r ≤ cellsForDistance d2 r) ∧
      ∀ d : ℚ, 1 ≤ cellsForDistance d r ∧ (2 * cellsForDistance d r + 1) % 2 = 1 := by
  refine ⟨fun d1 d2 h => cellsForDistance_mono hr h, fun d => ⟨one_le_cellsForDistance d r, ?_⟩⟩
  omega

/-- C8 (witness): the monotonicity and oddness statement instantiated at
resolution 30, checked on distances 100 ≤ 20000. -/
theorem C8_window_sizing_monotone_witness :
    (0 : ℚ) < 30 ∧
      cellsForDistance 100 30 ≤ cellsForDistance 20000 30 ∧
      1 ≤ cellsForDistance 100 30 := by
  have h := C8_window_sizing_monotone 30 (by norm_num)
  exact ⟨by norm_num, h.1 100 20000 (by norm_num), (h.2 100).1⟩

/-- C3: for every input and radius, the no-data sentinel is never a key of
the histogram returned by either aggregator: the buffer aggregator's
tabulation excludes no-data cells, and the neighborhood aggregator's
`WHERE pixel_value IS NOT NULL` filter removes the NULL rows the engine
produces for no-data cells, so neither a NULL key nor the sentinel value
itself ever reaches the returned histogram. -/
theorem C3_nodata_never_a_key (nd : ℤ) (buffer_meters : ℚ) (window_size : ℤ) (c : ℕ) :
    (∀ (bufE : ℚ → Except String (List ℤ)) (h : List (ℤ × ℕ)),
      get_pixel_counts_in_buffer_5070 nd buffer_meters bufE = some h → (nd, c) ∉ h) ∧
    (∀ (rows : List (Option ℤ)) (h : List (Option ℤ × ℕ)),
      get_pixel_counts_in_neighborhood_5070 window_size (fun _ => .ok rows) = some h →
        (none, c) ∉ h) ∧
    (∀ (cells : List ℤ) (h : List (Option ℤ × ℕ)),
      get_pixel_counts_in_neighborhood_5070 window_size
          (fun _ => .ok (engineNeighborhoodRows nd cells)) = some h →
        (some nd, c) ∉ h) := by
  refine ⟨?_, ?_, ?_⟩
  · intro bufE h hrun hmem
    unfold get_pixel_counts_in_buffer_5070 at hrun
    cases hE : bufE buffer_meters with
    | error msg => rw [hE] at hrun; exact Option.noConfusion hrun
    | ok cells =>
      rw [hE] at hrun
      obtain rfl : st_valueCount nd cells = h := Option.some.inj hrun
      exact (mem_st_valueCount hmem).1 rfl
  · intro rows h hrun hmem
    unfold get_pixel_counts_in_neighborhood_5070 at hrun
    obtain rfl : groupCounts (rows.filter (fun v => v.isSome)) = h :=
      Option.some.inj hrun
    have hnone : (none : Option ℤ) ∈ rows.filter (fun v => v.isSome) :=
      (mem_groupCounts hmem).1
    have := List.of_mem_filter hnone
    simp at this
  · intro cells h hrun hmem
    unfold get_pixel_counts_in_neighborhood_5070 at hrun
    obtain rfl : groupCounts ((engineNeighborhoodRows nd cells).filter
        (fun v => v.isSome)) = h := Option.some.inj hrun
    have hin : some nd ∈ (engineNeighborhoodRows nd cells).filter
        (fun v => v.isSome) := (mem_groupCounts hmem).1
    exact not_some_nd_mem_engineNeighborhoodRows nd cells (List.mem_of_mem_filter hin)

/-- C3 (witness): the no-key property checked on the concrete raster region
`[1, 0, 2]` with sentinel 0: the buffer histogram is `[(1,1), (2,1)]` and
the neighborhood histogram is `[(some 1, 1), (some 2, 1)]`, and 0 is not a
key of either. -/
theorem C3_nodata_never_a_key_witness :
    get_pixel_counts_in_buffer_5070 0 90 (fun _ => .ok [1, 0, 2]) =
        some [(1, 1), (2, 1)] ∧
      ((0 : ℤ), 1) ∉ [((1 : ℤ), 1), (2, 1)] ∧
      get_pixel_counts_in_neighborhood_5070 3
          (fun _ => .ok (engineNeighborhoodRows 0 [1, 0, 2])) =
        some [(some 1, 1), (some 2, 1)] ∧
      (some (0 : ℤ), 1) ∉ [(some (1 : ℤ), 1), (some 2, 1)] :=
  ⟨by decide,
   (C3_nodata_never_a_key 0 90 3 1).1 (fun _ => .ok [1, 0, 2]) [(1, 1), (2, 1)]
     (by decide),
   by decide,
   (C3_nodata_never_a_key 0 90 3 1).2.2 [1, 0, 2] [(some 1, 1), (some 2, 1)]
     (by decide)⟩

/-- C10: every count value in a histogram returned by either aggregator is
strictly positive: only values actually present in the considered region
are tabulated, so no key carries an occurrence count of zero. -/
theorem C10_counts_positive (nd : ℤ) (buffer_meters : ℚ) (window_size : ℤ) :
    (∀ (bufE : ℚ → Except String (List ℤ)) (h : List (ℤ × ℕ)),
      get_pixel_counts_in_buffer_5070 nd buffer_meters bufE = some h →
        ∀ k c, (k, c) ∈ h → 1 ≤ c) ∧
    (∀ (neighE : ℤ → Except String (List (Option ℤ))) (h : List (Option ℤ × ℕ)),
      get_pixel_counts_in_neighborhood_5070 window_size neighE = some h →
        ∀ k c, (k, c) ∈ h → 1 ≤ c) := by
  constructor
  · intro bufE h hrun k c hmem
    unfold get_pixel_counts_in_buffer_5070 at hrun
    cases hE : bufE buffer_meters with
    | error msg => rw [hE] at hrun; exact Option.noConfusion hrun
    | ok cells =>
      rw [hE] at hrun
      obtain rfl : st_valueCount nd cells = h := Option.some.inj hrun
      exact (mem_st_valueCount hmem).2
  · intro neighE h hrun k c hmem
    simp only [get_pixel_counts_in_neighborhood_5070] at hrun
    cases hE : neighE (window_radius window_size) with
    | error msg => rw [hE] at hrun; exact Option.noConfusion hrun
    | ok rows =>
      rw [hE] at hrun
      obtain rfl : groupCounts (rows.filter (fun v => v.isSome)) = h :=
        Option.some.inj hrun
      exact (mem_groupCounts hmem).2

/-- C10 (witness): positivity of the counts checked on the concrete region
`[1, 0, 2, 1]` with sentinel 0, whose buffer histogram is
`[(2, 1), (1, 2)]`. -/
theorem C10_counts_positive_witness :
    get_pixel_counts_in_buffer_5070 0 90 (fun _ => .ok [1, 0, 2, 1]) =
        some [(2, 1), (1, 2)] ∧ 1 ≤ 2 :=
  ⟨by decide,
   (C10_counts_positive 0 90 3).1 (fun _ => .ok [1, 0, 2, 1]) [(2, 1), (1, 2)]
     (by decide) 1 2 (by decide)⟩

/-- C5 (counterexample): the claim states a connection-level failure is
surfaced to the caller as an error and never converted into a null result.
In the source both aggregators catch every exception — including the
connection failure `db_cursor` re-raises — print it, and return `None`:
at a concrete failing session, both return the null result. -/
theorem C5_connection_failure_counterexample :
    get_pixel_counts_in_buffer_5070 0 90 (fun _ => .error "connection refused") = none ∧
      get_pixel_counts_in_neighborhood_5070 3
        (fun _ => .error "connection refused") = none :=
  ⟨rfl, rfl⟩

/-- C5 (amended): for every aggregator call, a connection-level failure of
the session boundary is caught inside the aggregator (after `db_cursor`
rolls back and re-raises it), logged, and converted into a `None` (absent)
result returned to downstream histogram consumers; it is not surfaced to
the caller as an error. -/
theorem C5_connection_failure_amended (nd : ℤ) (buffer_meters : ℚ)
    (window_size : ℤ) (msg : String) :
    get_pixel_counts_in_buffer_5070 nd buffer_meters (fun _ => .error msg) = none ∧
      get_pixel_counts_in_neighborhood_5070 window_size
        (fun _ => .error msg) = none :=
  ⟨rfl, rfl⟩

/-- A raster-engine stub for concrete runs: every buffer query succeeds and
returns the same small region. -/
def constBufEngine : ℕ → ℚ → Except String (List ℤ) :=
  fun _ _ => .ok [1, 0, 2]

/-- A raster-engine stub for concrete runs: every neighborhood query
succeeds and returns the same small window. -/
def constNeighEngine : ℕ → ℤ → Except String (List (Option ℤ)) :=
  fun _ _ => .ok [some 1, none, some 2]

/-- A session stub whose every request fails at the connection level. -/
def failBufEngine (msg : String) : ℕ → ℚ → Except String (List ℤ) :=
  fun _ _ => .error msg

/-- A session stub whose every neighborhood request fails at the connection
level. -/
def failNeighEngine (msg : String) : ℕ → ℤ → Except String (List (Option ℤ)) :=
  fun _ _ => .error msg

/-- A timing oracle for concrete runs. -/
def zeroTimer : Strategy → ℚ → ℕ → ℚ :=
  fun _ _ _ => 0

/-- C4: for every point (abstracted into the engine and timing oracles),
every list of N distinct sizes and every iteration count K, one benchmark
run records exactly K elapsed-time samples per (strategy, size) pair,
N·K samples per strategy in total, and the per-(strategy, size) summary of
`plot_scaling_comparison` is the `np.median` of that pair's K samples. -/
theorem C4_benchmark_sample_counts (nd : ℤ)
    (bufE : ℕ → ℚ → Except String (List ℤ))
    (neighE : ℕ → ℤ → Except String (List (Option ℤ)))
    (timer : Strategy → ℚ → ℕ → ℚ) (sizes : List ℚ) (K : ℕ)
    (hnodup : sizes.Nodup) :
    (∀ (strat : Strategy), ∀ s ∈ sizes,
      ((benchmark_methods_by_size nd bufE neighE timer sizes K) strat s).length = K) ∧
    (∀ (strat : Strategy),
      (sizes.map (fun s =>
          ((benchmark_methods_by_size nd bufE neighE timer sizes K) strat s).length)).sum =
        sizes.length * K) ∧
    (∀ (results : Strategy → ℚ → List ℚ) (i : ℕ) (hi : i < sizes.length),
      (plot_scaling_comparison results sizes).1.get
          ⟨i, by simpa [plot_scaling_comparison] using hi⟩ =
        npMedian (results Strategy.buffer (sizes.get ⟨i, hi⟩)) ∧
      (plot_scaling_comparison results sizes).2.get
          ⟨i, by simpa [plot_scaling_comparison] using hi⟩ =
        npMedian (results Strategy.neighborhood (sizes.get ⟨i, hi⟩))) := by
  have hlen : ∀ (strat : Strategy), ∀ s ∈ sizes,
      ((benchmark_methods_by_size nd bufE neighE timer sizes K) strat s).length = K := by
    intro strat s hs
    rw [benchmark_methods_by_size_length, List.count_eq_one_of_mem hnodup hs, one_mul]
  refine ⟨hlen, fun strat => sum_map_eq_of_const sizes _ K (hlen strat), ?_⟩
  intro results i hi
  constructor <;> simp [plot_scaling_comparison, List.getElem_map]

/-- C4 (witness): a concrete run over sizes `[10, 20]` with 2 iterations:
each (strategy, size) pair holds exactly 2 samples and each strategy holds
4 samples in total. -/
theorem C4_benchmark_sample_counts_witness :
    ([10, 20] : List ℚ).Nodup ∧
      ((benchmark_methods_by_size 0 constBufEngine constNeighEngine zeroTimer
          [10, 20] 2) Strategy.buffer 10).length = 2 ∧
      (([10, 20] : List ℚ).map (fun s =>
          ((benchmark_methods_by_size 0 constBufEngine constNeighEngine zeroTimer
              [10, 20] 2) Strategy.neighborhood s).length)).sum = 2 * 2 := by
  have hnodup : ([10, 20] : List ℚ).Nodup := by decide
  have h := C4_benchmark_sample_counts 0 constBufEngine constNeighEngine zeroTimer
    [10, 20] 2 hnodup
  exact ⟨hnodup, h.1 Strategy.buffer 10 (by decide), h.2.1 Strategy.neighborhood⟩

/-- C6 (counterexample): the claim states that a failed aggregator call
within any iteration aborts the whole harness run with an error, producing
no benchmark series.  With a session that fails every request, every
aggregator call in every iteration fails (each returns the swallowed-error
result `none`), yet the harness completes and produces the full series —
2 samples per strategy for the single size — rather than aborting. -/
theorem C6_failed_calls_counterexample :
    get_pixel_counts_in_buffer_5070 0 100 (failBufEngine "connection refused" 0) =
        none ∧
      get_pixel_counts_in_neighborhood_5070 (window_cells 100 30)
        (failNeighEngine "connection refused" 0) = none ∧
      ((benchmark_methods_by_size 0 (failBufEngine "connection refused")
          (failNeighEngine "connection refused") zeroTimer [100] 2)
          Strategy.buffer 100).length = 2 ∧
      ((benchmark_methods_by_size 0 (failBufEngine "connection refused")
          (failNeighEngine "connection refused") zeroTimer [100] 2)
          Strategy.neighborhood 100).length = 2 := by
  refine ⟨rfl, rfl, ?_, ?_⟩ <;> decide

/-- C6 (amended): a failed aggregator call within an iteration is swallowed
inside the aggregator (which returns `none`), the harness records its
elapsed-time sample as if it had succeeded, and the run continues: even
when every call fails, the benchmark completes with the full K samples per
(strategy, size) pair and never aborts. -/
theorem C6_failed_calls_amended (nd : ℤ) (msgB msgN : String)
    (timer : Strategy → ℚ → ℕ → ℚ) (sizes : List ℚ) (K : ℕ)
    (hnodup : sizes.Nodup) :
    ∀ s ∈ sizes,
      get_pixel_counts_in_buffer_5070 nd s (failBufEngine msgB 0) = none ∧
      get_pixel_counts_in_neighborhood_5070 (window_cells s 30)
        (failNeighEngine msgN 0) = none ∧
      ((benchmark_methods_by_size nd (failBufEngine msgB) (failNeighEngine msgN)
          timer sizes K) Strategy.buffer s).length = K ∧
      ((benchmark_methods_by_size nd (failBufEngine msgB) (failNeighEngine msgN)
          timer sizes K) Strategy.neighborhood s).length = K := by
  intro s hs
  refine ⟨rfl, rfl, ?_, ?_⟩ <;>
    rw [benchmark_methods_by_size_length, List.count_eq_one_of_mem hnodup hs, one_mul]

/-- C6 (witness): the amended statement at a concrete failing run over the
single size 100 with 3 iterations. -/
theorem C6_failed_calls_amended_witness :
    ([100] : List ℚ).Nodup ∧ (100 : ℚ) ∈ ([100] : List ℚ) ∧
      (get_pixel_counts_in_buffer_5070 7 100 (failBufEngine "timeout" 0) = none ∧
        get_pixel_counts_in_neighborhood_5070 (window_cells 100 30)
          (failNeighEngine "timeout" 0) = none ∧
        ((benchmark_methods_by_size 7 (failBufEngine "timeout")
            (failNeighEngine "timeout") zeroTimer [100] 3)
            Strategy.buffer 100).length = 3 ∧
        ((benchmark_methods_by_size 7 (failBufEngine "timeout")
            (failNeighEngine "timeout") zeroTimer [100] 3)
            Strategy.neighborhood 100).length = 3) :=
  ⟨by decide, by decide,
   C6_failed_calls_amended 7 "timeout" "timeout" zeroTimer [100] 3 (by decide)
     100 (by decide)⟩

/-- C7: for every standard CRS parameter token list and datum-token pair,
`derive` fails with `DatumNotFound` exactly when the source datum token is
absent, and otherwise returns a token list identical to the input except
that the source datum token is replaced by the target datum token. -/
theorem C7_derive_datum_substitution (standardCrsParams : List String)
    (sourceDatumToken targetDatumToken : String) :
    (sourceDatumToken ∉ standardCrsParams ↔
      derive standardCrsParams sourceDatumToken targetDatumToken =
        .error "DatumNotFound") ∧
    (sourceDatumToken ∈ standardCrsParams →
      ∃ out, derive standardCrsParams sourceDatumToken targetDatumToken = .ok out ∧
        out.length = standardCrsParams.length ∧
        ∀ (i : ℕ) (hi : i < standardCrsParams.length) (hi' : i < out.length),
          (standardCrsParams.get ⟨i, hi⟩ = sourceDatumToken →
            out.get ⟨i, hi'⟩ = targetDatumToken) ∧
          (standardCrsParams.get ⟨i, hi⟩ ≠ sourceDatumToken →
            out.get ⟨i, hi'⟩ = standardCrsParams.get ⟨i, hi⟩)) := by
  constructor
  · unfold derive
    split_ifs with hmem <;> simp_all
  · intro hmem
    refine ⟨standardCrsParams.map
      (fun tok => if tok = sourceDatumToken then targetDatumToken else tok),
      ?_, by simp, ?_⟩
    · unfold derive
      rw [if_pos hmem]
    · intro i hi hi'
      constructor <;> intro hcase <;>
        simp only [List.get_eq_getElem] at hcase ⊢ <;>
        simp [List.getElem_map, hcase]

/-- C7 (witness): substitution checked on concrete parameter token lists:
when the source datum token is absent `derive` fails with `DatumNotFound`,
and when it is present `derive` succeeds with a same-length token list. -/
theorem C7_derive_datum_substitution_witness :
    ("+datum=NAD83" ∉ (["+proj=aea", "+units=m"] : List String) ↔
      derive ["+proj=aea", "+units=m"] "+datum=NAD83" "+datum=WGS84" =
        .error "DatumNotFound") ∧
    ("+datum=NAD83" ∉ (["+proj=aea", "+units=m"] : List String)) ∧
    ∃ out, derive ["+proj=aea", "+datum=NAD83"] "+datum=NAD83" "+datum=WGS84" =
      .ok out ∧ out.length = 2 := by
  refine ⟨(C7_derive_datum_substitution ["+proj=aea", "+units=m"] "+datum=NAD83"
    "+datum=WGS84").1, by decide, ?_⟩
  obtain ⟨out, hout, hlen, _⟩ :=
    (C7_derive_datum_substitution ["+proj=aea", "+datum=NAD83"] "+datum=NAD83"
      "+datum=WGS84").2 (by decide)
  exact ⟨out, hout, by rw [hlen]; rfl⟩

end RasterQuery
